import Mathlib

/-!
Shallow embedding of `bench.py` and `analyze.py` from the `ybench` repository.

Modelling conventions:
* Python strings are modelled as `List Char` (abbreviated `Str`); the slice `s[:n]`
  is `List.take n s`, and `s[:-k]` for `k > 0` is `List.take (s.length - k) s`.
  For `k = 0` Python's `s[:-0]` equals `s[:0] = ""`, which the embedding reproduces.
* The remote tokenizer (`tokenize`, a POST to `/api/extra/tokencount`) is an external
  collaborator and enters the embedding as a parameter `tok : Str → List Nat` mapping
  a prompt to its token-id sequence.
* The shuffled corpus (`datasets.load_dataset(...).shuffle(seed)` in `get_data`) is an
  external collaborator and enters as a parameter `shuffle : Nat → List Str` giving,
  for each seed, the corpus records in their shuffled order.
* The completions endpoint (`generate`) enters as a parameter
  `gen : Nat → Str → Nat → Except String Rat`, taking the sampler seed, the prompt and
  `max_tokens` to either a measured wall-clock duration or a transport/HTTP error.
* The float expressions `floor(ctx_length * 4.27)`, `floor(1.1 * data_length)`,
  `floor(ctx_size_chunk * 4.27)` and `floor((ctx_length / 32) * 4.27)` are modelled by
  the exact rational floors `427 * ctx / 100`, `11 * d / 10`, `427 * chunk / 100` and
  `427 * ctx / 3200` (natural-number division).  For the magnitudes the program works
  with, the IEEE double computation agrees with these exact values: the products are
  rationals with denominator 10, 100 or 3200, whose distance to any integer they do not
  equal is at least `1/3200`, far above the relative rounding error of the doubles
  involved.  Likewise the comparison `len(tokens) <= ctx_length - ctx_length / 32`
  is modelled exactly as `32 * len ≤ 31 * ctx`.
* Every `while True:` loop of the source is modelled with an explicit fuel parameter;
  a result of `none` means the fuel ran out before the loop finished, so statements of
  the form `... = some r` speak about exactly the runs the Python program completes.
-/

/-- Python strings as character lists. -/
abbrev Str : Type := List Char

/-- Total character count of a list of corpus records. -/
def totalLen (records : List Str) : Nat := (records.map List.length).sum

/-- The record-accumulation loop of `get_data` (`bench.py` lines 42-45): append shuffled
records one by one; as soon as the accumulated text reaches the requested length, return
its prefix of exactly that length; if the records run out first, fail like the source's
`raise ValueError("Dataset is too small")`. -/
def get_data_go (length : Nat) : List Str → Str → Except String Str
  | [], _ => Except.error "Dataset is too small"
  | r :: rest, acc =>
    let acc' := acc ++ r
    if length ≤ acc'.length then Except.ok (acc'.take length)
    else get_data_go length rest acc'

/-- `get_data(seed, length)` (`bench.py` lines 31-46): concatenate the records of the
shuffled corpus until `length` characters are accumulated and return the first `length`
characters, or fail with the exhaustion error. -/
def get_data (shuffle : Nat → List Str) (seed length : Nat) : Except String Str :=
  get_data_go length (shuffle seed) []

/-- Growth phase of `get_max_prompt` (`bench.py` lines 62-69): fetch text of the current
estimated character length, tokenize it, stop once the token count exceeds `ctx`;
otherwise grow the estimate by 10 percent (`floor(1.1 * data_length)`, modelled exactly
as `11 * d / 10`) and retry.  A corpus-exhaustion error from `get_data` propagates. -/
def growthLoop (tok : Str → List Nat) (shuffle : Nat → List Str) (ctx seed : Nat) :
    Nat → Nat → Option (Except String Str)
  | 0, _ => none
  | fuel + 1, data_length =>
    match get_data shuffle seed data_length with
    | Except.error e => some (Except.error e)
    | Except.ok prompt =>
      if ctx < (tok prompt).length then some (Except.ok prompt)
      else growthLoop tok shuffle ctx seed fuel (11 * data_length / 10)

/-- Trim phase of `get_max_prompt` (`bench.py` lines 76-83): repeatedly drop
`floor((ctx/32) * 4.27)` characters (`cut`) from the end of the prompt (Python
`prompt[:-cut]`; for `cut = 0` this is `prompt[:0] = ""`), re-tokenize, and stop once
the token count is at most `ctx - ctx/32` (modelled exactly as `32 * count ≤ 31 * ctx`);
the final prompt and its token count are returned, as in the source's
`return prompt, len(tokens)`. -/
def trimLoop (tok : Str → List Nat) (ctx cut : Nat) :
    Nat → Str → Option (Str × Nat)
  | 0, _ => none
  | fuel + 1, prompt =>
    let prompt' := if cut = 0 then [] else prompt.take (prompt.length - cut)
    if 32 * (tok prompt').length ≤ 31 * ctx then some (prompt', (tok prompt').length)
    else trimLoop tok ctx cut fuel prompt'

/-- `get_max_prompt(metadata, seed)` (`bench.py` lines 59-83): growth phase starting from
`floor(ctx_length * 4.27)` characters, then trim phase with chunk
`floor((ctx_length / 32) * 4.27)` characters. -/
def get_max_prompt (tok : Str → List Nat) (shuffle : Nat → List Str)
    (ctx seed growthFuel trimFuel : Nat) : Option (Except String (Str × Nat)) :=
  match growthLoop tok shuffle ctx seed growthFuel (427 * ctx / 100) with
  | none => none
  | some (Except.error e) => some (Except.error e)
  | some (Except.ok prompt) =>
    match trimLoop tok ctx (427 * ctx / 3200) trimFuel prompt with
    | none => none
    | some pc => some (Except.ok pc)

/-- One row of the sweep's results (`bench.py` lines 108-118): the measured duration and
the prompt / generation token counts.  `gen_tokens` is the requested `max_tokens`, as in
the source. -/
structure ResultRec where
  duration : Rat
  prompt_tokens : Nat
  gen_tokens : Nat
deriving DecidableEq, Repr

/-- Observable events of one sweep, in program order: each inner-loop iteration first
calls the Prompt Sizer (`get_max_prompt(metadata, seed)`, event `sizer seed`) and then,
if the admission check passes, issues one generation request
(`generate(metadata, seed, prompt, max_tokens)`, event `genReq seed prompt max_tokens`). -/
inductive Ev where
  | sizer (seed : Nat)
  | genReq (seed : Nat) (prompt : Str) (max_tokens : Nat)
deriving DecidableEq, Repr

/-- The diagnostics `benchmark_requests` prints before re-raising a failed generation
request (`bench.py` lines 119-127): the error, the running prompt-length counter, the
prompt, `max_tokens` and the seed.  `collected` carries the records accumulated before
the failure (the source discards them when the exception propagates; they are kept here
so that "no record was appended for the failed request" is observable). -/
structure FailInfo where
  msg : String
  prompt_length : Nat
  prompt : Str
  max_tokens : Nat
  seed : Nat
  collected : List ResultRec
deriving DecidableEq, Repr

/-- The ways `benchmark_requests` can abort: a corpus-exhaustion `ValueError` propagating
out of `get_max_prompt`, a failed generation request re-raised after printing the
diagnostics, or Python's `ValueError` from `range(a, b, 0)` when `ctx_length // 8 = 0`. -/
inductive BenchErr where
  | corpusErr (msg : String)
  | genFail (info : FailInfo)
  | zeroStep
deriving DecidableEq, Repr

/-- Seeds of the Prompt Sizer calls of a trace, in order. -/
def sizerSeeds : List Ev → List Nat
  | [] => []
  | Ev.sizer s :: t => s :: sizerSeeds t
  | Ev.genReq _ _ _ :: t => sizerSeeds t

/-- Sampler seeds of the issued generation requests of a trace, in order. -/
def genReqSeeds : List Ev → List Nat
  | [] => []
  | Ev.sizer _ :: t => genReqSeeds t
  | Ev.genReq s _ _ :: t => s :: genReqSeeds t

/-- Python's `range(start, stop, step)` for positive `step`. -/
def pyRange (start stop step : Nat) : List Nat :=
  (List.range ((stop - start + step - 1) / step)).map (fun i => start + step * i)

/-- The generation-length buckets of the sweep (`bench.py` lines 91-93):
`range(ctx_size_chunk, ctx_length - ctx_size_chunk, ctx_size_chunk)` with
`ctx_size_chunk = floor(ctx_length / 8)`. -/
def gen_buckets (ctx : Nat) : List Nat :=
  pyRange (ctx / 8) (ctx - ctx / 8) (ctx / 8)

/-- The inner `while True:` loop of `benchmark_requests` (`bench.py` lines 95-127) for
one generation-length bucket `mt`.  Arguments after the fuel: the seed counter, the
running prompt-length counter, the accumulated records and the accumulated event trace.
On a passed admission check the generation request is issued; a failure aborts with the
printed diagnostics (`BenchErr.genFail`), a success appends one record and continues.
A failed admission check (`len(prompt_tokens) + max_tokens > ctx_length`) breaks out,
handing the seed counter and records back to the outer loop. -/
def innerLoop (tok : Str → List Nat) (shuffle : Nat → List Str)
    (gen : Nat → Str → Nat → Except String Rat)
    (ctx chunk mt growthFuel trimFuel : Nat) :
    Nat → Nat → Nat → List ResultRec → List Ev →
      Option (List Ev × Except BenchErr (Nat × List ResultRec))
  | 0, _, _, _, _ => none
  | fuel + 1, seed, plen, results, evs =>
    let s := seed + 1
    match get_max_prompt tok shuffle ctx s growthFuel trimFuel with
    | none => none
    | some (Except.error e) => some (evs ++ [Ev.sizer s], Except.error (BenchErr.corpusErr e))
    | some (Except.ok (max_prompt, _)) =>
      let plen' := plen + 427 * chunk / 100
      let prompt := max_prompt.take plen'
      let pt := (tok prompt).length
      if ctx < pt + mt then
        some (evs ++ [Ev.sizer s], Except.ok (s, results))
      else
        match gen s prompt mt with
        | Except.error e =>
          some (evs ++ [Ev.sizer s, Ev.genReq s prompt mt],
            Except.error (BenchErr.genFail ⟨e, plen', prompt, mt, s, results⟩))
        | Except.ok dur =>
          innerLoop tok shuffle gen ctx chunk mt growthFuel trimFuel fuel s plen'
            (results ++ [⟨dur, pt, mt⟩]) (evs ++ [Ev.sizer s, Ev.genReq s prompt mt])

/-- The `for max_tokens in range(...)` loop of `benchmark_requests` (`bench.py` lines
91-127): run the inner loop for each bucket, threading the seed counter (which the
source never resets between buckets), the records and the event trace. -/
def outerLoop (tok : Str → List Nat) (shuffle : Nat → List Str)
    (gen : Nat → Str → Nat → Except String Rat)
    (ctx growthFuel trimFuel innerFuel : Nat) :
    List Nat → Nat → List ResultRec → List Ev →
      Option (List Ev × Except BenchErr (Nat × List ResultRec))
  | [], seed, results, evs => some (evs, Except.ok (seed, results))
  | mt :: rest, seed, results, evs =>
    match innerLoop tok shuffle gen ctx (ctx / 8) mt growthFuel trimFuel innerFuel
        seed 0 results evs with
    | none => none
    | some (evs', Except.error e) => some (evs', Except.error e)
    | some (evs', Except.ok (seed', results')) =>
      outerLoop tok shuffle gen ctx growthFuel trimFuel innerFuel rest seed' results' evs'

/-- `benchmark_requests(metadata)` (`bench.py` lines 86-129): seed counter starts at 0,
`ctx_size_chunk = floor(ctx_length / 8)`, and the sweep runs over `gen_buckets ctx`
(the single `for iteration in range(1)` wrapper of the source has no effect).  The
result pairs the trace of observable events with either the completed record list or
the abort cause. -/
def benchmark_requests (tok : Str → List Nat) (shuffle : Nat → List Str)
    (gen : Nat → Str → Nat → Except String Rat)
    (ctx growthFuel trimFuel innerFuel : Nat) :
    Option (List Ev × Except BenchErr (List ResultRec)) :=
  if ctx / 8 = 0 then some ([], Except.error BenchErr.zeroStep)
  else
    (outerLoop tok shuffle gen ctx growthFuel trimFuel innerFuel
        (gen_buckets ctx) 0 [] []).map
      (fun er => (er.1, er.2.map (fun sr => sr.2)))

/-- Tokens per second of one record (`analyze.py` line 8):
`(prompt_tokens + gen_tokens) / duration`, computed during reporting. -/
def tps (r : ResultRec) : Rat :=
  ((r.prompt_tokens : Rat) + (r.gen_tokens : Rat)) / r.duration

/-- Ascending sort used to model the order statistics of a pandas Series. -/
def sortQ (xs : List Rat) : List Rat :=
  List.insertionSort (fun a b => a ≤ b) xs

/-- pandas `Series.quantile(q)` with the default linear interpolation: on the sorted
values `v_0 ≤ ... ≤ v_(n-1)` the result is `v_i + (h - i) * (v_(i+1) - v_i)` where
`h = q * (n - 1)` and `i = floor h`.  On an empty series the result is NaN, modelled as
`none`. -/
def quantileQ (xs : List Rat) (q : Rat) : Option Rat :=
  if xs.length = 0 then none
  else
    let s := sortQ xs
    let h : Rat := q * ((xs.length : Rat) - 1)
    let i : Nat := (⌊h⌋).toNat
    let lo := s.getD i 0
    let hi := s.getD (i + 1) lo
    some (lo + (h - (⌊h⌋ : Rat)) * (hi - lo))

/-- pandas `Series.mean()`: the arithmetic mean, NaN (`none`) on an empty series. -/
def meanQ (xs : List Rat) : Option Rat :=
  if xs.length = 0 then none else some (xs.sum / (xs.length : Rat))

/-- pandas `Series.median()`: the 0.5-quantile with linear interpolation. -/
def medianQ (xs : List Rat) : Option Rat := quantileQ xs (1 / 2)

/-- The square of pandas `Series.std()` (sample standard deviation, `ddof = 1`), i.e.
the sample variance `sum (x - mean)^2 / (n - 1)`.  The source's value is the square
root of this, an irrational number in general, so the embedding tracks its square; the
two are `none`/NaN for exactly the same inputs (fewer than two values), which is what
the definedness claims are about.  (The source also rounds the displayed value; the
rounding of the other three statistics is `round2` below.) -/
def sampleVarQ (xs : List Rat) : Option Rat :=
  if xs.length ≤ 1 then none
  else
    let m := xs.sum / (xs.length : Rat)
    some ((xs.map (fun x => (x - m) ^ 2)).sum / ((xs.length : Rat) - 1))

/-- numpy's `round` to an integer: round half to even. -/
def roundHalfEven (x : Rat) : Int :=
  let f := ⌊x⌋
  let r := x - (f : Rat)
  if r < 1 / 2 then f
  else if 1 / 2 < r then f + 1
  else if f % 2 = 0 then f else f + 1

/-- pandas `.round(2)`: round to two decimal places, half to even. -/
def round2 (x : Rat) : Rat := ((roundHalfEven (100 * x) : Rat)) / 100

/-- `calculate_metrics(dataframe)` (`analyze.py` lines 12-17) applied to the `tps`
column: mean, 99th percentile and median rounded to two decimals, and the sample
standard deviation modelled by its square (see `sampleVarQ`).  Each statistic is `none`
exactly when pandas yields NaN. -/
def calculate_metrics (xs : List Rat) : Option Rat × Option Rat × Option Rat × Option Rat :=
  ((meanQ xs).map round2, (quantileQ xs (99 / 100)).map round2,
    (medianQ xs).map round2, sampleVarQ xs)

/-- The `gen_tokens` column of a record list, as rationals. -/
def genCol (df : List ResultRec) : List Rat := df.map (fun r => (r.gen_tokens : Rat))

/-- The `prompt_tokens` column of a record list, as rationals. -/
def promptCol (df : List ResultRec) : List Rat := df.map (fun r => (r.prompt_tokens : Rat))

/-- The balanced cohort (`analyze.py` lines 44-48): records whose `gen_tokens` and
`prompt_tokens` both lie within their own interquartile range, inclusive (`between` is
inclusive on both ends by default).  On an empty frame the quartiles are NaN and every
comparison with NaN is false, so no record is selected. -/
def balanced_case (df : List ResultRec) : List ResultRec :=
  match quantileQ (genCol df) (1 / 4), quantileQ (genCol df) (3 / 4),
      quantileQ (promptCol df) (1 / 4), quantileQ (promptCol df) (3 / 4) with
  | some g25, some g75, some p25, some p75 =>
    df.filter (fun r =>
      decide (g25 ≤ (r.gen_tokens : Rat) ∧ (r.gen_tokens : Rat) ≤ g75) &&
      decide (p25 ≤ (r.prompt_tokens : Rat) ∧ (r.prompt_tokens : Rat) ≤ p75))
  | _, _, _, _ => []

/-- The high-generation / low-prompt cohort (`analyze.py` lines 53-55): records with
`gen_tokens` at or above its third quartile and `prompt_tokens` at or below its first
quartile.  On an empty frame nothing is selected (NaN comparisons are false). -/
def high_gen_low_prompt (df : List ResultRec) : List ResultRec :=
  match quantileQ (genCol df) (3 / 4), quantileQ (promptCol df) (1 / 4) with
  | some g75, some p25 =>
    df.filter (fun r =>
      decide (g75 ≤ (r.gen_tokens : Rat)) && decide ((r.prompt_tokens : Rat) ≤ p25))
  | _, _ => []

/-- The high-prompt / low-generation cohort (`analyze.py` lines 60-62). -/
def high_prompt_low_gen (df : List ResultRec) : List ResultRec :=
  match quantileQ (promptCol df) (3 / 4), quantileQ (genCol df) (1 / 4) with
  | some p75, some g25 =>
    df.filter (fun r =>
      decide (p75 ≤ (r.prompt_tokens : Rat)) && decide ((r.gen_tokens : Rat) ≤ g25))
  | _, _ => []

/-- The four rows of the report table (`analyze.py` lines 32-64): overall metrics and
the three cohort rows, each row the `calculate_metrics` of the cohort's `tps` column. -/
def report_rows (df : List ResultRec) :
    List (String × (Option Rat × Option Rat × Option Rat × Option Rat)) :=
  [("Overall", calculate_metrics (df.map tps)),
   ("Balanced Case", calculate_metrics ((balanced_case df).map tps)),
   ("High Gen / Low Prompt", calculate_metrics ((high_gen_low_prompt df).map tps)),
   ("High Prompt / Low Gen", calculate_metrics ((high_prompt_low_gen df).map tps))]

/-- The validated run descriptor (`bench.py` lines 17-25, dataclass `Metadata`). -/
structure Metadata where
  base_url : String
  ctx_length : Nat
  model_name : String
  prog_name : String
  prog_ver : String
  commit_id : Option String := none
  dir_name : Option String := none
deriving DecidableEq, Repr

/-- The metadata dictionary built by `get_metadata` (`bench.py` lines 164-193) before
validation: every field may have resolved to absent (`None`), either because the API
query failed and no CLI override was given (required fields) or because the `git` call
failed (the optional `commit_id` / `dir_name`). -/
structure RawMetadata where
  base_url : Option String
  ctx_length : Option Nat
  model_name : Option String
  prog_name : Option String
  prog_ver : Option String
  commit_id : Option String
  dir_name : Option String
deriving DecidableEq, Repr

/-- The names of the required fields that are absent, in the dictionary order in which
the loop of `validate_metadata` (`bench.py` lines 220-226) visits and prints them;
`commit_id` and `dir_name` are skipped by the `key not in ["commit_id", "dir_name"]`
test. -/
def requiredMissing (m : RawMetadata) : List String :=
  (if m.base_url = none then ["base_url"] else []) ++
  (if m.model_name = none then ["model_name"] else []) ++
  (if m.ctx_length = none then ["ctx_length"] else []) ++
  (if m.prog_name = none then ["prog_name"] else []) ++
  (if m.prog_ver = none then ["prog_ver"] else [])

/-- `validate_metadata` (`bench.py` lines 219-229): returns the constructed `Metadata`
when no required field is absent, and `None` otherwise (the function falls off the end
when `found_error` is set). -/
def validate_metadata (m : RawMetadata) : Option Metadata :=
  match m.base_url, m.ctx_length, m.model_name, m.prog_name, m.prog_ver with
  | some b, some c, some mn, some pn, some pv =>
    some ⟨b, c, mn, pn, pv, m.commit_id, m.dir_name⟩
  | _, _, _, _, _ => none

/-- The `__main__` control flow (`bench.py` lines 232-241): if validation fails the
program prints the help text and exits with status 1 (`Except.error 1`) without invoking
`benchmark_requests`; otherwise it runs the benchmark on the validated metadata. -/
def main_flow {A : Type} (m : RawMetadata) (run : Metadata → A) : Except Nat A :=
  match validate_metadata m with
  | none => Except.error 1
  | some md => Except.ok (run md)

/-- Concrete tokenizer used by the witnesses: one token per four characters. -/
def tokQuarter (s : Str) : List Nat := List.replicate (s.length / 4) 0

/-- Concrete shuffled corpus used by the witnesses: one record of 80 characters. -/
def corpus80 : Nat → List Str := fun _ => [List.replicate 80 'a']

/-- Concrete shuffled corpus used by the witnesses: one record of 200 characters. -/
def corpus200 : Nat → List Str := fun _ => [List.replicate 200 'a']

/-- Concrete shuffled corpus used by the witnesses: records "abc" and "de". -/
def corpusSmall : Nat → List Str := fun _ => [['a', 'b', 'c'], ['d', 'e']]

/-- Generation endpoint that always succeeds with a one-second duration. -/
def genOk : Nat → Str → Nat → Except String Rat := fun _ _ _ => Except.ok 1

/-- Generation endpoint that fails like an HTTP 500 on sampler seed 3. -/
def genHttp500 : Nat → Str → Nat → Except String Rat := fun s _ _ =>
  if s = 3 then Except.error "HTTP 500" else Except.ok 1

/-- A tokenizer that maps every non-empty text to a single token (as a byte-pair
tokenizer does on a short run of a repeated character). -/
def tokFlat (s : Str) : List Nat := if s.length = 0 then [] else [0]

/-- A four-character corpus. -/
def corpus4 : Nat → List Str := fun _ => [['a', 'a', 'a', 'a']]

/-- The seed discipline of one sweep, as a grammar on event traces: `SeedTrace n t m`
says the trace `t` is a sequence of inner-loop iteration groups in which the seed
counter starts at `n` and ends at `m`, each iteration increments the counter by exactly
one before calling the Prompt Sizer, and a generation request, when issued, immediately
follows its iteration's sizer call with the very same seed. -/
inductive SeedTrace : Nat → List Ev → Nat → Prop where
  | nil (n : Nat) : SeedTrace n [] n
  | skip {n m : Nat} {t : List Ev} : SeedTrace (n + 1) t m →
      SeedTrace n (Ev.sizer (n + 1) :: t) m
  | hit {n m mt : Nat} {p : Str} {t : List Ev} : SeedTrace (n + 1) t m →
      SeedTrace n (Ev.sizer (n + 1) :: Ev.genReq (n + 1) p mt :: t) m

lemma totalLen_cons (r : Str) (rest : List Str) :
    totalLen (r :: rest) = r.length + totalLen rest := by
  simp [totalLen]

lemma get_data_go_ok (length : Nat) :
    ∀ (records : List Str) (acc : Str), records ≠ [] →
      length ≤ acc.length + totalLen records →
      ∃ s, get_data_go length records acc = Except.ok s ∧ s.length = length := by
  intro records
  induction records with
  | nil => intro acc h _; exact absurd rfl h
  | cons r rest ih =>
    intro acc _ hle
    by_cases hc : length ≤ (acc ++ r).length
    · refine ⟨(acc ++ r).take length, ?_, ?_⟩
      · simp only [get_data_go]; rw [if_pos hc]
      · rw [List.length_take]; exact Nat.min_eq_left hc
    · have hrest : rest ≠ [] := by
        intro he
        rw [he, totalLen_cons] at hle
        simp [totalLen, List.length_append] at hle hc
        omega
      have hle' : length ≤ (acc ++ r).length + totalLen rest := by
        rw [totalLen_cons] at hle
        simp only [List.length_append]
        omega
      obtain ⟨s, hs, hl⟩ := ih (acc ++ r) hrest hle'
      refine ⟨s, ?_, hl⟩
      simp only [get_data_go]; rw [if_neg hc]; exact hs

lemma get_data_go_err (length : Nat) :
    ∀ (records : List Str) (acc : Str), acc.length + totalLen records < length →
      get_data_go length records acc = Except.error "Dataset is too small" := by
  intro records
  induction records with
  | nil => intro acc _; rfl
  | cons r rest ih =>
    intro acc h
    rw [totalLen_cons] at h
    have hc : ¬ length ≤ (acc ++ r).length := by
      simp only [List.length_append]; omega
    simp only [get_data_go]; rw [if_neg hc]
    exact ih (acc ++ r) (by simp only [List.length_append]; omega)

/-- Claim C4: for every seed and every N, if the shuffled corpus is non-empty and its
total character count is at least N, `get_data(seed, N)` returns a string of length
exactly N; the result is uniquely determined by seed and N (determinism within a
process); and if the full corpus is shorter than N the call fails with the exhaustion
error instead of returning. -/
theorem get_data_spec (shuffle : Nat → List Str) (seed N : Nat) :
    (shuffle seed ≠ [] → N ≤ totalLen (shuffle seed) →
      ∃ s, get_data shuffle seed N = Except.ok s ∧ s.length = N) ∧
    (∀ r₁ r₂, get_data shuffle seed N = r₁ → get_data shuffle seed N = r₂ → r₁ = r₂) ∧
    (totalLen (shuffle seed) < N →
      get_data shuffle seed N = Except.error "Dataset is too small") := by
  refine ⟨fun h1 h2 => get_data_go_ok N (shuffle seed) [] h1 (by simpa), ?_, ?_⟩
  · intro r₁ r₂ ha hb; rw [← ha, ← hb]
  · intro h; exact get_data_go_err N (shuffle seed) [] (by simpa)

/-- Witness for C4 at a concrete corpus: with records "abc", "de" (total length 5),
requesting 4 characters succeeds with a result of length exactly 4, and requesting 6
characters fails with the exhaustion error. -/
theorem get_data_spec_witness :
    (∃ s, get_data corpusSmall 0 4 = Except.ok s ∧ s.length = 4) ∧
    get_data corpusSmall 0 6 = Except.error "Dataset is too small" :=
  ⟨(get_data_spec corpusSmall 0 4).1 (by decide) (by decide),
   (get_data_spec corpusSmall 0 6).2.2 (by decide)⟩

/-- Counterexample to claim C3: for ctx_length = 2048 the buckets the sweep iterates
are `range(256, 1792, 256)`, whose upper end is exclusive, so 1792 is not among them
and the bucket list is not 256..1792. -/
theorem gen_buckets_2048_missing_1792 :
    gen_buckets 2048 ≠ [256, 512, 768, 1024, 1280, 1536, 1792] ∧
    1792 ∉ gen_buckets 2048 := by
  decide

/-- Claim C3 as amended: for ctx_length = 2048 the generation-length buckets are
exactly 256, 512, 768, 1024, 1280, 1536 — `range(256, 1792, 256)` with its exclusive
stop, so `ctx_length - chunk_size = 1792` itself is never iterated. -/
theorem gen_buckets_2048_eq :
    gen_buckets 2048 = [256, 512, 768, 1024, 1280, 1536] := by
  decide

lemma floor_eq_zero_of_lt_one {q : Rat} (h0 : 0 ≤ q) (h1 : q < 1) : ⌊q⌋ = 0 := by
  rw [Int.floor_eq_zero_iff]; exact ⟨h0, h1⟩

lemma roundHalfEven_int (n : Int) : roundHalfEven (n : Rat) = n := by
  unfold roundHalfEven
  rw [Int.floor_intCast]
  norm_num

lemma round2_sixty : round2 60 = 60 := by
  have h : (100 : Rat) * 60 = ((6000 : Int) : Rat) := by norm_num
  rw [round2, h, roundHalfEven_int]
  norm_num

/-- The pandas linear-interpolation quantile of a sorted two-element series. -/
lemma quantileQ_pair (a b q : Rat) (hab : a ≤ b) (h0 : 0 ≤ q) (h1 : q < 1) :
    quantileQ [a, b] q = some (a + q * (b - a)) := by
  have hs : sortQ [a, b] = [a, b] := by
    simp [sortQ, List.insertionSort, List.orderedInsert, hab]
  have h2 : ((List.length [a, b] : Nat) : Rat) - 1 = 1 := by norm_num
  unfold quantileQ
  rw [if_neg (by norm_num)]
  simp only [hs, h2, mul_one, floor_eq_zero_of_lt_one h0 h1]
  simp [List.getD]

/-- Claim C9: tokens-per-second is (prompt_tokens + gen_tokens) / duration, and on the
records {duration 1.0, 10, 10} and {duration 2.0, 100, 100} the overall mean
tokens-per-second is exactly 60. -/
theorem tps_mean_example :
    tps ⟨1, 10, 10⟩ = 20 ∧ tps ⟨2, 100, 100⟩ = 100 ∧
    (calculate_metrics (([⟨1, 10, 10⟩, ⟨2, 100, 100⟩] : List ResultRec).map tps)).1 =
      some 60 := by
  have hmap : ([⟨1, 10, 10⟩, ⟨2, 100, 100⟩] : List ResultRec).map tps = [20, 100] := by
    simp [tps]; norm_num
  refine ⟨by norm_num [tps], by norm_num [tps], ?_⟩
  rw [hmap]
  show (meanQ [20, 100]).map round2 = some 60
  rw [meanQ, if_neg (by norm_num)]
  have hm : ([(20 : Rat), 100].sum / ((List.length [(20 : Rat), 100] : Nat) : Rat)) = 60 := by
    norm_num
  rw [hm]
  simp [round2_sixty]

/-- Claim C6: the report always has its four rows, and for each of the three cohorts,
if the cohort selects zero records then all four of its statistics are undefined
(`none`, pandas NaN), not zero. -/
theorem cohort_empty_undefined (df : List ResultRec) :
    (report_rows df).length = 4 ∧
    (balanced_case df = [] →
      calculate_metrics ((balanced_case df).map tps) = (none, none, none, none)) ∧
    (high_gen_low_prompt df = [] →
      calculate_metrics ((high_gen_low_prompt df).map tps) = (none, none, none, none)) ∧
    (high_prompt_low_gen df = [] →
      calculate_metrics ((high_prompt_low_gen df).map tps) = (none, none, none, none)) := by
  refine ⟨rfl, ?_, ?_, ?_⟩ <;> intro h <;> rw [h] <;> rfl

/-- Witness for C6: on the two comonotone records {1, 10, 10} and {2, 100, 100} the
high-generation / low-prompt cohort is empty and its reported statistics are all
undefined. -/
lemma hglp_example_empty :
    high_gen_low_prompt [⟨1, 10, 10⟩, ⟨2, 100, 100⟩] = [] := by
  have hg : genCol [⟨1, 10, 10⟩, ⟨2, 100, 100⟩] = [10, 100] := by
    simp [genCol]
  have hp : promptCol [⟨1, 10, 10⟩, ⟨2, 100, 100⟩] = [10, 100] := by
    simp [promptCol]
  have h75 : quantileQ [(10 : Rat), 100] (3 / 4) = some (155 / 2) := by
    rw [quantileQ_pair 10 100 (3 / 4) (by norm_num) (by norm_num) (by norm_num)]
    norm_num
  have h25 : quantileQ [(10 : Rat), 100] (1 / 4) = some (65 / 2) := by
    rw [quantileQ_pair 10 100 (1 / 4) (by norm_num) (by norm_num) (by norm_num)]
    norm_num
  rw [high_gen_low_prompt, hg, hp, h75, h25]
  have d1 : decide ((155 : Rat) / 2 ≤ 10) = false := decide_eq_false_iff_not.mpr (by norm_num)
  have d2 : decide ((100 : Rat) ≤ 65 / 2) = false := decide_eq_false_iff_not.mpr (by norm_num)
  simp [List.filter, d1, d2]

theorem cohort_empty_undefined_witness :
    high_gen_low_prompt [⟨1, 10, 10⟩, ⟨2, 100, 100⟩] = [] ∧
    calculate_metrics ((high_gen_low_prompt [⟨1, 10, 10⟩, ⟨2, 100, 100⟩]).map tps) =
      (none, none, none, none) :=
  ⟨hglp_example_empty,
   (cohort_empty_undefined [⟨1, 10, 10⟩, ⟨2, 100, 100⟩]).2.2.1 hglp_example_empty⟩

set_option maxHeartbeats 1600000 in
/-- Claim C8: if any required metadata field (base_url, ctx_length, model_name,
prog_name, prog_ver) resolves to absent, validation reports each missing field by name
and the program exits with status 1 before invoking the benchmark; if all required
fields are present the run proceeds, regardless of the optional `commit_id` and
`dir_name` (which never appear among the reported missing fields). -/
theorem metadata_validation (m : RawMetadata) :
    (requiredMissing m ≠ [] → validate_metadata m = none ∧
      ∀ (A : Type) (run : Metadata → A), main_flow m run = Except.error 1) ∧
    (requiredMissing m = [] → ∀ (A : Type) (run : Metadata → A),
      ∃ md, validate_metadata m = some md ∧ main_flow m run = Except.ok (run md)) ∧
    (m.base_url = none → "base_url" ∈ requiredMissing m) ∧
    (m.model_name = none → "model_name" ∈ requiredMissing m) ∧
    (m.ctx_length = none → "ctx_length" ∈ requiredMissing m) ∧
    (m.prog_name = none → "prog_name" ∈ requiredMissing m) ∧
    (m.prog_ver = none → "prog_ver" ∈ requiredMissing m) ∧
    requiredMissing ⟨m.base_url, m.ctx_length, m.model_name, m.prog_name, m.prog_ver,
      none, none⟩ = requiredMissing m := by
  obtain ⟨b, c, mn, pn, pv, ci, dn⟩ := m
  cases b <;> cases c <;> cases mn <;> cases pn <;> cases pv <;>
    simp [requiredMissing, validate_metadata, main_flow]

/-- Witness for C8: with `ctx_length` unresolved the program reports `ctx_length` among
the missing fields and exits with status 1; with every required field present (and the
optional fields absent) validation succeeds and the benchmark runs. -/
theorem metadata_validation_witness :
    requiredMissing ⟨some "http://localhost:5001/", none, some "m", some "p",
        some "v", none, none⟩ ≠ [] ∧
    main_flow ⟨some "http://localhost:5001/", none, some "m", some "p", some "v",
        none, none⟩ (fun md => md.ctx_length) = Except.error 1 ∧
    "ctx_length" ∈ requiredMissing ⟨some "http://localhost:5001/", none, some "m",
        some "p", some "v", none, none⟩ ∧
    ∃ md, validate_metadata ⟨some "u", some 2048, some "m", some "p", some "v",
        none, none⟩ = some md ∧
      main_flow ⟨some "u", some 2048, some "m", some "p", some "v", none, none⟩
        (fun md => md.ctx_length) = Except.ok md.ctx_length :=
  ⟨by simp [requiredMissing],
   ((metadata_validation _).1 (by simp [requiredMissing])).2 _ _,
   (metadata_validation _).2.2.2.2.1 rfl,
   (metadata_validation _).2.1 (by simp [requiredMissing]) _ _⟩

lemma trimLoop_ok (tok : Str → List Nat) (ctx cut : Nat) :
    ∀ (fuel : Nat) (p p' : Str) (c : Nat),
      trimLoop tok ctx cut fuel p = some (p', c) →
      32 * c ≤ 31 * ctx ∧ (tok p').length = c := by
  intro fuel
  induction fuel with
  | zero => intro p p' c h; simp [trimLoop] at h
  | succ n ih =>
    intro p p' c h
    simp only [trimLoop] at h
    generalize (if cut = 0 then ([] : Str) else p.take (p.length - cut)) = q at h
    split at h
    · next hc => cases h; exact ⟨hc, rfl⟩
    · exact ih _ p' c h

/-- Claim C2: whenever `get_max_prompt` returns normally (for a context limit above 32),
the returned token count is at most `ctx_length - ctx_length / 32`, and tokenizing the
returned prompt again yields exactly that count (the tokenizer being a function, i.e.
deterministic). -/
theorem get_max_prompt_bound (tok : Str → List Nat) (shuffle : Nat → List Str)
    (ctx seed growthFuel trimFuel : Nat) (p : Str) (c : Nat) (hctx : 32 < ctx)
    (h : get_max_prompt tok shuffle ctx seed growthFuel trimFuel =
      some (Except.ok (p, c))) :
    (c : Rat) ≤ (ctx : Rat) - (ctx : Rat) / 32 ∧ (tok p).length = c := by
  unfold get_max_prompt at h
  split at h
  · simp at h
  · simp at h
  · next prompt hg =>
    split at h
    · simp at h
    · next pc hpc =>
      have hpcp : pc = (p, c) := by simpa using h
      rw [hpcp] at hpc
      obtain ⟨hle, hlen⟩ := trimLoop_ok tok ctx _ trimFuel prompt p c hpc
      refine ⟨?_, hlen⟩
      have h32 : (32 : Rat) * (c : Rat) ≤ 31 * (ctx : Rat) := by exact_mod_cast hle
      linarith

set_option maxRecDepth 8000 in
/-- Witness for C2 at a concrete run: ctx_length 40 (> 32), one-token-per-four-chars
tokenizer, 200-character corpus; the sizer returns a 155-character prompt of exactly 38
tokens, and 38 ≤ 40 - 40/32. -/
theorem get_max_prompt_bound_witness :
    ∃ (p : Str) (c : Nat),
      get_max_prompt tokQuarter corpus200 40 0 3 5 = some (Except.ok (p, c)) ∧
      (c : Rat) ≤ (40 : Rat) - (40 : Rat) / 32 ∧ (tokQuarter p).length = c :=
  ⟨_, _, rfl, get_max_prompt_bound tokQuarter corpus200 40 0 3 5 _ _
    (by norm_num) rfl⟩

lemma growth_step (d : Nat) (h : 10 ≤ d) : d + 1 ≤ 11 * d / 10 := by
  rw [Nat.le_div_iff_mul_le (by norm_num)]
  omega

lemma get_data_ok_le {shuffle : Nat → List Str} {seed d : Nat} {p : Str}
    (h : get_data shuffle seed d = Except.ok p) : d ≤ totalLen (shuffle seed) := by
  by_contra hlt
  have herr : get_data_go d (shuffle seed) [] = Except.error "Dataset is too small" :=
    get_data_go_err d (shuffle seed) [] (by simp only [List.length_nil]; omega)
  rw [get_data, herr] at h
  exact Except.noConfusion h

lemma growthLoop_term (tok : Str → List Nat) (shuffle : Nat → List Str)
    (ctx seed : Nat) :
    ∀ (fuel d : Nat), 10 ≤ d → totalLen (shuffle seed) + 1 ≤ fuel + d →
      (growthLoop tok shuffle ctx seed (fuel + 1) d).isSome := by
  intro fuel
  induction fuel with
  | zero =>
    intro d h10 hTd
    have herr : get_data shuffle seed d = Except.error "Dataset is too small" :=
      get_data_go_err d (shuffle seed) [] (by simp only [List.length_nil]; omega)
    simp [growthLoop, herr]
  | succ n ih =>
    intro d h10 hTd
    cases hg : get_data shuffle seed d with
    | error e => simp [growthLoop, hg]
    | ok prompt =>
      by_cases hlen : ctx < (tok prompt).length
      · simp [growthLoop, hg, hlen]
      · have hd : d ≤ totalLen (shuffle seed) := get_data_ok_le hg
        have h11 : d + 1 ≤ 11 * d / 10 := growth_step d h10
        have := ih (11 * d / 10) (by omega) (by omega)
        simpa [growthLoop, hg, hlen] using this

lemma trimLoop_term (tok : Str → List Nat) (ctx cut : Nat) (hnil : tok [] = []) :
    ∀ (fuel : Nat) (p : Str), p.length + 1 ≤ fuel →
      (trimLoop tok ctx cut fuel p).isSome := by
  intro fuel
  induction fuel with
  | zero => intro p h; exact absurd h (by omega)
  | succ n ih =>
    intro p hf
    simp only [trimLoop]
    set q := (if cut = 0 then ([] : Str) else p.take (p.length - cut)) with hq
    by_cases hc : 32 * (tok q).length ≤ 31 * ctx
    · rw [if_pos hc]; simp
    · rw [if_neg hc]
      have hql : 1 ≤ (tok q).length := by
        by_contra h0
        push_neg at h0
        exact hc (by omega)
      have hqne : q ≠ [] := by
        intro he
        rw [he, hnil] at hql
        simp at hql
      have hcut : cut ≠ 0 := by
        intro he
        exact hqne (by rw [hq, if_pos he])
      have hqlen : q.length = p.length - cut := by
        rw [hq, if_neg hcut, List.length_take]
        exact Nat.min_eq_left (Nat.sub_le _ _)
      have hqpos : 0 < q.length := List.length_pos.mpr hqne
      exact ih q (by omega)

/-- Claim C7 as amended: for every context limit of at least 3 (so the initial estimate
`floor(ctx_length * 4.27)` is at least 10 characters and the 10-percent growth makes
strict progress), every corpus, every seed and every tokenizer that yields no tokens on
the empty text, `get_max_prompt` terminates: some fuel makes both loops finish (with
the sized prompt, or with the corpus-exhaustion error). -/
theorem get_max_prompt_terminates (tok : Str → List Nat) (shuffle : Nat → List Str)
    (ctx seed : Nat) (hctx : 3 ≤ ctx) (hnil : tok [] = []) :
    ∃ growthFuel trimFuel r,
      get_max_prompt tok shuffle ctx seed growthFuel trimFuel = some r := by
  have hd0 : 10 ≤ 427 * ctx / 100 := by
    rw [Nat.le_div_iff_mul_le (by norm_num)]
    omega
  have hgrow := growthLoop_term tok shuffle ctx seed (totalLen (shuffle seed))
    (427 * ctx / 100) hd0 (by omega)
  obtain ⟨r, hr⟩ := Option.isSome_iff_exists.mp hgrow
  cases r with
  | error e =>
    refine ⟨totalLen (shuffle seed) + 1, 0, Except.error e, ?_⟩
    unfold get_max_prompt
    rw [hr]
  | ok prompt =>
    have htrim := trimLoop_term tok ctx (427 * ctx / 3200) hnil
      (prompt.length + 1) prompt (le_refl _)
    obtain ⟨pc, hpc⟩ := Option.isSome_iff_exists.mp htrim
    refine ⟨totalLen (shuffle seed) + 1, prompt.length + 1, Except.ok pc, ?_⟩
    unfold get_max_prompt
    rw [hr]
    show (match trimLoop tok ctx (427 * ctx / 3200) (prompt.length + 1) prompt with
      | none => none
      | some pc => some (Except.ok pc)) = some (Except.ok pc)
    rw [hpc]

/-- Witness for the amended C7 at a concrete input: ctx_length 16, the
one-token-per-four-chars tokenizer and the 80-character corpus. -/
theorem get_max_prompt_terminates_witness :
    ∃ growthFuel trimFuel r,
      get_max_prompt tokQuarter corpus80 16 1 growthFuel trimFuel = some r :=
  get_max_prompt_terminates tokQuarter corpus80 16 1 (by norm_num) rfl

lemma growthLoop_stuck : ∀ fuel, growthLoop tokFlat corpus4 1 0 fuel 4 = none := by
  intro fuel
  induction fuel with
  | zero => rfl
  | succ n ih =>
    have hg : get_data corpus4 0 4 = Except.ok ['a', 'a', 'a', 'a'] := rfl
    have hl : ¬ (1 < (tokFlat ['a', 'a', 'a', 'a']).length) := by
      norm_num [tokFlat]
    simp only [growthLoop, hg]
    rw [if_neg hl]
    have h4 : (11 * 4 / 10 : Nat) = 4 := by norm_num
    rw [h4]
    exact ih

/-- Counterexample to claim C7 as stated: `get_max_prompt` does not terminate on every
input.  With ctx_length 1, the initial estimate is `floor(1 * 4.27) = 4` characters,
`floor(1.1 * 4) = 4` makes no progress, and under a tokenizer that maps the fetched
four-character text to a single token (so the count never exceeds ctx_length) the
growth loop runs forever: no amount of fuel makes the call return. -/
theorem get_max_prompt_diverges :
    ¬ ∃ growthFuel trimFuel r,
      get_max_prompt tokFlat corpus4 1 0 growthFuel trimFuel = some r := by
  rintro ⟨f1, f2, r, h⟩
  have h4 : (427 * 1 / 100 : Nat) = 4 := by norm_num
  unfold get_max_prompt at h
  rw [h4, growthLoop_stuck f1] at h
  simp at h

lemma innerLoop_admission (tok : Str → List Nat) (shuffle : Nat → List Str)
    (gen : Nat → Str → Nat → Except String Rat) (ctx chunk mt f1 f2 : Nat) :
    ∀ (fuel seed plen : Nat) (results : List ResultRec) (evs evs' : List Ev)
      (out : Except BenchErr (Nat × List ResultRec)),
      innerLoop tok shuffle gen ctx chunk mt f1 f2 fuel seed plen results evs =
        some (evs', out) →
      (∀ r ∈ results, r.prompt_tokens + r.gen_tokens ≤ ctx) →
      ∀ s' results', out = Except.ok (s', results') →
        ∀ r ∈ results', r.prompt_tokens + r.gen_tokens ≤ ctx := by
  intro fuel
  induction fuel with
  | zero =>
    intro seed plen results evs evs' out h
    exact absurd h (by simp [innerLoop])
  | succ n ih =>
    intro seed plen results evs evs' out h hinv s' results' hout
    simp only [innerLoop] at h
    split at h
    · exact Option.noConfusion h
    · cases h
      exact Except.noConfusion hout
    · next mp cnt hmp =>
      split at h
      · next hadm =>
        cases h
        cases hout
        exact hinv
      · next hadm =>
        split at h
        · next e hgen =>
          cases h
          exact Except.noConfusion hout
        · next dur hgen =>
          refine ih _ _ _ _ _ _ h ?_ s' results' hout
          intro r hr
          rcases List.mem_append.mp hr with hr | hr
          · exact hinv r hr
          · rw [List.mem_singleton] at hr
            subst hr
            exact Nat.le_of_not_lt hadm

lemma outerLoop_admission (tok : Str → List Nat) (shuffle : Nat → List Str)
    (gen : Nat → Str → Nat → Except String Rat) (ctx f1 f2 fI : Nat) :
    ∀ (bl : List Nat) (seed : Nat) (results : List ResultRec) (evs evs' : List Ev)
      (out : Except BenchErr (Nat × List ResultRec)),
      outerLoop tok shuffle gen ctx f1 f2 fI bl seed results evs = some (evs', out) →
      (∀ r ∈ results, r.prompt_tokens + r.gen_tokens ≤ ctx) →
      ∀ s' results', out = Except.ok (s', results') →
        ∀ r ∈ results', r.prompt_tokens + r.gen_tokens ≤ ctx := by
  intro bl
  induction bl with
  | nil =>
    intro seed results evs evs' out h hinv s' results' hout
    simp only [outerLoop] at h
    cases h
    cases hout
    exact hinv
  | cons mt rest ih =>
    intro seed results evs evs' out h hinv s' results' hout
    simp only [outerLoop] at h
    split at h
    · exact Option.noConfusion h
    · next evs1 e hin =>
      cases h
      exact Except.noConfusion hout
    · next evs1 seed1 results1 hin =>
      exact ih seed1 results1 evs1 evs' out h
        (innerLoop_admission tok shuffle gen ctx (ctx / 8) mt f1 f2 fI seed 0 results
          evs evs1 (Except.ok (seed1, results1)) hin hinv seed1 results1 rfl)
        s' results' hout

/-- Claim C1: every completed sweep only emits records that satisfy the admission
bound: for every Result Record in the returned list,
prompt_tokens + gen_tokens ≤ ctx_length (the inner loop breaks without issuing a
request whenever the tokenized prompt plus the bucket's max_tokens would exceed the
limit, so no record violating the bound is ever appended). -/
theorem bench_admission (tok : Str → List Nat) (shuffle : Nat → List Str)
    (gen : Nat → Str → Nat → Except String Rat) (ctx f1 f2 fI : Nat)
    (evs : List Ev) (rs : List ResultRec)
    (h : benchmark_requests tok shuffle gen ctx f1 f2 fI = some (evs, Except.ok rs)) :
    ∀ r ∈ rs, r.prompt_tokens + r.gen_tokens ≤ ctx := by
  unfold benchmark_requests at h
  split at h
  · simp at h
  · rw [Option.map_eq_some'] at h
    obtain ⟨⟨evs1, out1⟩, ho, hf⟩ := h
    injection hf with h1 h2
    subst h1
    cases out1 with
    | error e => simp [Except.map] at h2
    | ok sr =>
      simp only [Except.map] at h2
      injection h2 with h2
      subst h2
      exact outerLoop_admission tok shuffle gen ctx f1 f2 fI (gen_buckets ctx) 0 [] []
        evs1 (Except.ok sr) ho (by simp) sr.1 sr.2 rfl

set_option maxRecDepth 40000 in
/-- Witness for C1: a completed sweep at ctx_length 16 (buckets 2,4,...,12, 27 records)
in which every record satisfies prompt_tokens + gen_tokens ≤ 16. -/
theorem bench_admission_witness :
    ∃ (evs : List Ev) (rs : List ResultRec),
      benchmark_requests tokQuarter corpus80 genOk 16 3 5 10 =
        some (evs, Except.ok rs) ∧
      ∀ r ∈ rs, r.prompt_tokens + r.gen_tokens ≤ 16 :=
  ⟨_, _, rfl, bench_admission tokQuarter corpus80 genOk 16 3 5 10 _ _ rfl⟩

lemma sizerSeeds_append : ∀ (a b : List Ev),
    sizerSeeds (a ++ b) = sizerSeeds a ++ sizerSeeds b := by
  intro a b
  induction a with
  | nil => rfl
  | cons e t ih => cases e <;> simp [sizerSeeds, ih]

lemma genReqSeeds_append : ∀ (a b : List Ev),
    genReqSeeds (a ++ b) = genReqSeeds a ++ genReqSeeds b := by
  intro a b
  induction a with
  | nil => rfl
  | cons e t ih => cases e <;> simp [genReqSeeds, ih]

lemma getLast?_append_two (l : List Ev) (a b : Ev) : (l ++ [a, b]).getLast? = some b := by
  rw [show l ++ [a, b] = (l ++ [a]) ++ [b] by simp]
  exact List.getLast?_concat _

lemma innerLoop_genfail (tok : Str → List Nat) (shuffle : Nat → List Str)
    (gen : Nat → Str → Nat → Except String Rat) (ctx chunk mt f1 f2 : Nat) :
    ∀ (fuel seed plen : Nat) (results : List ResultRec) (evs evs' : List Ev)
      (out : Except BenchErr (Nat × List ResultRec)),
      innerLoop tok shuffle gen ctx chunk mt f1 f2 fuel seed plen results evs =
        some (evs', out) →
      (genReqSeeds evs).length = results.length →
      ((∀ s' results', out = Except.ok (s', results') →
          (genReqSeeds evs').length = results'.length) ∧
       (∀ info, out = Except.error (BenchErr.genFail info) →
          gen info.seed info.prompt info.max_tokens = Except.error info.msg ∧
          evs'.getLast? = some (Ev.genReq info.seed info.prompt info.max_tokens) ∧
          (genReqSeeds evs').length = info.collected.length + 1)) := by
  intro fuel
  induction fuel with
  | zero =>
    intro seed plen results evs evs' out h
    exact absurd h (by simp [innerLoop])
  | succ n ih =>
    intro seed plen results evs evs' out h hlen
    simp only [innerLoop] at h
    split at h
    · exact Option.noConfusion h
    · cases h
      refine ⟨fun s' r' hout => Except.noConfusion hout, fun info hout => ?_⟩
      injection hout with h1
      exact BenchErr.noConfusion h1
    · next mp cnt hmp =>
      split at h
      · next hadm =>
        cases h
        refine ⟨fun s' r' hout => ?_, fun info hout => Except.noConfusion hout⟩
        cases hout
        rw [genReqSeeds_append]
        simpa [genReqSeeds] using hlen
      · next hadm =>
        split at h
        · next e hgen =>
          cases h
          refine ⟨fun s' r' hout => Except.noConfusion hout, fun info hout => ?_⟩
          injection hout with h1
          injection h1 with h2
          subst h2
          refine ⟨hgen, getLast?_append_two _ _ _, ?_⟩
          rw [genReqSeeds_append, List.length_append]
          simp only [genReqSeeds, List.length_cons, List.length_nil]
          omega
        · next dur hgen =>
          refine ih _ _ _ _ _ _ h ?_
          rw [genReqSeeds_append, List.length_append, List.length_append]
          simp only [genReqSeeds, List.length_cons, List.length_nil,
            List.length_singleton]
          omega

lemma outerLoop_genfail (tok : Str → List Nat) (shuffle : Nat → List Str)
    (gen : Nat → Str → Nat → Except String Rat) (ctx f1 f2 fI : Nat) :
    ∀ (bl : List Nat) (seed : Nat) (results : List ResultRec) (evs evs' : List Ev)
      (out : Except BenchErr (Nat × List ResultRec)),
      outerLoop tok shuffle gen ctx f1 f2 fI bl seed results evs = some (evs', out) →
      (genReqSeeds evs).length = results.length →
      ((∀ s' results', out = Except.ok (s', results') →
          (genReqSeeds evs').length = results'.length) ∧
       (∀ info, out = Except.error (BenchErr.genFail info) →
          gen info.seed info.prompt info.max_tokens = Except.error info.msg ∧
          evs'.getLast? = some (Ev.genReq info.seed info.prompt info.max_tokens) ∧
          (genReqSeeds evs').length = info.collected.length + 1)) := by
  intro bl
  induction bl with
  | nil =>
    intro seed results evs evs' out h hlen
    simp only [outerLoop] at h
    cases h
    refine ⟨fun s' r' hout => ?_, fun info hout => Except.noConfusion hout⟩
    cases hout
    exact hlen
  | cons mt rest ih =>
    intro seed results evs evs' out h hlen
    simp only [outerLoop] at h
    split at h
    · exact Option.noConfusion h
    · next evs1 e hin =>
      cases h
      refine ⟨fun s' r' hout => Except.noConfusion hout, fun info hout => ?_⟩
      injection hout with h1
      subst h1
      exact (innerLoop_genfail tok shuffle gen ctx (ctx / 8) mt f1 f2 fI seed 0 results
        evs evs' _ hin hlen).2 info rfl
    · next evs1 seed1 results1 hin =>
      exact ih seed1 results1 evs1 evs' out h
        ((innerLoop_genfail tok shuffle gen ctx (ctx / 8) mt f1 f2 fI seed 0 results
          evs evs1 _ hin hlen).1 seed1 results1 rfl)

/-- Claim C5: if a generation request fails, the sweep aborts at once: the surfaced
diagnostics name a request on which the generation endpoint really fails with exactly
the re-raised error; that failing request is the last event of the whole sweep (no
further sizer call or request is issued after it); and the records collected before the
failure correspond one-to-one to the earlier, successful requests — none was appended
for the failed request. -/
theorem bench_gen_failure (tok : Str → List Nat) (shuffle : Nat → List Str)
    (gen : Nat → Str → Nat → Except String Rat) (ctx f1 f2 fI : Nat)
    (evs : List Ev) (info : FailInfo)
    (h : benchmark_requests tok shuffle gen ctx f1 f2 fI =
      some (evs, Except.error (BenchErr.genFail info))) :
    gen info.seed info.prompt info.max_tokens = Except.error info.msg ∧
    evs.getLast? = some (Ev.genReq info.seed info.prompt info.max_tokens) ∧
    (genReqSeeds evs).length = info.collected.length + 1 := by
  unfold benchmark_requests at h
  split at h
  · simp at h
  · rw [Option.map_eq_some'] at h
    obtain ⟨⟨evs1, out1⟩, ho, hf⟩ := h
    injection hf with h1 h2
    subst h1
    cases out1 with
    | ok sr => simp [Except.map] at h2
    | error e =>
      simp only [Except.map] at h2
      injection h2 with h2
      subst h2
      exact (outerLoop_genfail tok shuffle gen ctx f1 f2 fI (gen_buckets ctx) 0 [] []
        evs1 _ ho (by simp [genReqSeeds])).2 info rfl

set_option maxRecDepth 40000 in
/-- Witness for C5: at ctx_length 16 with a generation endpoint failing like an
HTTP 500 on sampler seed 3, the sweep aborts on the third request with the diagnostics
of that request, the failing request is the last event, and exactly the two earlier
successful requests have records. -/
theorem bench_gen_failure_witness :
    ∃ (evs : List Ev) (info : FailInfo),
      benchmark_requests tokQuarter corpus80 genHttp500 16 3 5 10 =
        some (evs, Except.error (BenchErr.genFail info)) ∧
      genHttp500 info.seed info.prompt info.max_tokens = Except.error info.msg ∧
      evs.getLast? = some (Ev.genReq info.seed info.prompt info.max_tokens) ∧
      (genReqSeeds evs).length = info.collected.length + 1 :=
  ⟨_, _, rfl, bench_gen_failure tokQuarter corpus80 genHttp500 16 3 5 10 _ _ rfl⟩

lemma seedTrace_append {a b c : Nat} {t u : List Ev}
    (h1 : SeedTrace a t b) : SeedTrace b u c → SeedTrace a (t ++ u) c := by
  induction h1 with
  | nil => intro h2; simpa using h2
  | skip h ih => intro h2; exact SeedTrace.skip (ih h2)
  | hit h ih => intro h2; exact SeedTrace.hit (ih h2)

lemma seedTrace_le {a b : Nat} {t : List Ev} (h : SeedTrace a t b) : a ≤ b := by
  induction h with
  | nil => exact le_refl _
  | skip h ih => omega
  | hit h ih => omega

lemma seedTrace_sizer {a b : Nat} {t : List Ev} (h : SeedTrace a t b) :
    sizerSeeds t = List.range' (a + 1) (b - a) := by
  induction h with
  | nil => simp [sizerSeeds]
  | skip h ih =>
    next n m t' =>
    have hab : n + 1 ≤ m := seedTrace_le h
    rw [show m - n = (m - (n + 1)) + 1 by omega, List.range'_succ]
    simpa [sizerSeeds] using ih
  | hit h ih =>
    next n m mt p t' =>
    have hab : n + 1 ≤ m := seedTrace_le h
    rw [show m - n = (m - (n + 1)) + 1 by omega, List.range'_succ]
    simpa [sizerSeeds] using ih

lemma seedTrace_gen_lb {a b : Nat} {t : List Ev} (h : SeedTrace a t b) :
    (∀ s ∈ genReqSeeds t, a < s) ∧
    List.Pairwise (fun x y => x < y) (genReqSeeds t) := by
  induction h with
  | nil => exact ⟨by simp [genReqSeeds], by simp [genReqSeeds]⟩
  | skip h ih =>
    refine ⟨fun s hs => ?_, ?_⟩
    · have := ih.1 s (by simpa [genReqSeeds] using hs)
      omega
    · simpa [genReqSeeds] using ih.2
  | hit h ih =>
    refine ⟨fun s hs => ?_, ?_⟩
    · simp only [genReqSeeds, List.mem_cons] at hs
      rcases hs with rfl | hs
      · omega
      · have := ih.1 s hs
        omega
    · simp only [genReqSeeds]
      exact List.Pairwise.cons (fun s hs => by have := ih.1 s hs; omega) ih.2

lemma seedTrace_sub {a b : Nat} {t : List Ev} (h : SeedTrace a t b) :
    List.Sublist (genReqSeeds t) (sizerSeeds t) := by
  induction h with
  | nil => simp [genReqSeeds, sizerSeeds]
  | skip h ih =>
    simp only [genReqSeeds, sizerSeeds]
    exact ih.cons _
  | hit h ih =>
    simp only [genReqSeeds, sizerSeeds]
    exact ih.cons₂ _

lemma innerLoop_trace (tok : Str → List Nat) (shuffle : Nat → List Str)
    (gen : Nat → Str → Nat → Except String Rat) (ctx chunk mt f1 f2 : Nat) :
    ∀ (fuel seed plen : Nat) (results : List ResultRec) (evs evs' : List Ev)
      (out : Except BenchErr (Nat × List ResultRec)),
      innerLoop tok shuffle gen ctx chunk mt f1 f2 fuel seed plen results evs =
        some (evs', out) →
      ∃ (tr : List Ev) (m : Nat), evs' = evs ++ tr ∧ SeedTrace seed tr m ∧
        (∀ s' results', out = Except.ok (s', results') → m = s') := by
  intro fuel
  induction fuel with
  | zero =>
    intro seed plen results evs evs' out h
    exact absurd h (by simp [innerLoop])
  | succ n ih =>
    intro seed plen results evs evs' out h
    simp only [innerLoop] at h
    split at h
    · exact Option.noConfusion h
    · cases h
      exact ⟨[Ev.sizer (seed + 1)], seed + 1, rfl, SeedTrace.skip (SeedTrace.nil _),
        fun s' r' hout => Except.noConfusion hout⟩
    · next mp cnt hmp =>
      split at h
      · next hadm =>
        cases h
        refine ⟨[Ev.sizer (seed + 1)], seed + 1, rfl,
          SeedTrace.skip (SeedTrace.nil _), fun s' r' hout => ?_⟩
        cases hout
        rfl
      · next hadm =>
        split at h
        · next e hgen =>
          cases h
          exact ⟨[Ev.sizer (seed + 1), Ev.genReq (seed + 1) _ mt], seed + 1, rfl,
            SeedTrace.hit (SeedTrace.nil _), fun s' r' hout => Except.noConfusion hout⟩
        · next dur hgen =>
          obtain ⟨tr, m, htr, hst, hok⟩ := ih _ _ _ _ _ _ h
          refine ⟨Ev.sizer (seed + 1) ::
            Ev.genReq (seed + 1) (mp.take (plen + 427 * chunk / 100)) mt :: tr, m, ?_,
            SeedTrace.hit hst, hok⟩
          rw [htr]
          simp

lemma outerLoop_trace (tok : Str → List Nat) (shuffle : Nat → List Str)
    (gen : Nat → Str → Nat → Except String Rat) (ctx f1 f2 fI : Nat) :
    ∀ (bl : List Nat) (seed : Nat) (results : List ResultRec) (evs evs' : List Ev)
      (out : Except BenchErr (Nat × List ResultRec)),
      outerLoop tok shuffle gen ctx f1 f2 fI bl seed results evs = some (evs', out) →
      ∃ (tr : List Ev) (m : Nat), evs' = evs ++ tr ∧ SeedTrace seed tr m := by
  intro bl
  induction bl with
  | nil =>
    intro seed results evs evs' out h
    simp only [outerLoop] at h
    cases h
    exact ⟨[], seed, by simp, SeedTrace.nil _⟩
  | cons mt rest ih =>
    intro seed results evs evs' out h
    simp only [outerLoop] at h
    split at h
    · exact Option.noConfusion h
    · next evs1 e hin =>
      cases h
      obtain ⟨tr, m, htr, hst, _⟩ :=
        innerLoop_trace tok shuffle gen ctx (ctx / 8) mt f1 f2 fI seed 0 results
          evs evs' _ hin
      exact ⟨tr, m, htr, hst⟩
    · next evs1 seed1 results1 hin =>
      obtain ⟨tr1, m1, htr1, hst1, hok1⟩ :=
        innerLoop_trace tok shuffle gen ctx (ctx / 8) mt f1 f2 fI seed 0 results
          evs evs1 _ hin
      obtain ⟨tr2, m2, htr2, hst2⟩ := ih seed1 results1 evs1 evs' out h
      have hm1 : m1 = seed1 := hok1 seed1 results1 rfl
      subst hm1
      refine ⟨tr1 ++ tr2, m2, ?_, seedTrace_append hst1 hst2⟩
      rw [htr2, htr1, List.append_assoc]

/-- Claim C10: within one sweep the seed counter starts at 0, is incremented by exactly
1 before each inner iteration, and is never reset between buckets: the trace of any run
(completed or aborted) satisfies the `SeedTrace` discipline from counter 0, so the
Prompt Sizer seeds are exactly the consecutive sequence 1, 2, ..., m, the sampler seeds
of the issued generation requests are strictly increasing (hence pairwise distinct),
and every generation request's sampler seed is one of the sizer seeds — by `SeedTrace`,
precisely the seed of the sizer call of its own iteration, which it immediately
follows. -/
theorem bench_seed_discipline (tok : Str → List Nat) (shuffle : Nat → List Str)
    (gen : Nat → Str → Nat → Except String Rat) (ctx f1 f2 fI : Nat)
    (evs : List Ev) (out : Except BenchErr (List ResultRec))
    (h : benchmark_requests tok shuffle gen ctx f1 f2 fI = some (evs, out)) :
    ∃ m, SeedTrace 0 evs m ∧ sizerSeeds evs = List.range' 1 m ∧
      List.Pairwise (fun a b => a < b) (genReqSeeds evs) ∧
      List.Sublist (genReqSeeds evs) (sizerSeeds evs) := by
  unfold benchmark_requests at h
  split at h
  · cases h
    exact ⟨0, SeedTrace.nil 0, by simp [sizerSeeds], by simp [genReqSeeds],
      by simp [genReqSeeds, sizerSeeds]⟩
  · rw [Option.map_eq_some'] at h
    obtain ⟨⟨evs1, out1⟩, ho, hf⟩ := h
    injection hf with h1 h2
    subst h1
    obtain ⟨tr, m, htr, hst⟩ :=
      outerLoop_trace tok shuffle gen ctx f1 f2 fI (gen_buckets ctx) 0 [] [] evs1
        out1 ho
    rw [List.nil_append] at htr
    subst htr
    refine ⟨m, hst, ?_, (seedTrace_gen_lb hst).2, seedTrace_sub hst⟩
    have := seedTrace_sizer hst
    simpa using this

set_option maxRecDepth 40000 in
/-- Witness for C10: the completed ctx_length-16 sweep, whose sizer seeds are
1, 2, ..., 33 and whose request seeds are strictly increasing. -/
theorem bench_seed_discipline_witness :
    ∃ (evs : List Ev) (out : Except BenchErr (List ResultRec)),
      benchmark_requests tokQuarter corpus80 genOk 16 3 5 11 = some (evs, out) ∧
      ∃ m, SeedTrace 0 evs m ∧ sizerSeeds evs = List.range' 1 m ∧
        List.Pairwise (fun a b => a < b) (genReqSeeds evs) ∧
        List.Sublist (genReqSeeds evs) (sizerSeeds evs) :=
  ⟨_, _, rfl, bench_seed_discipline tokQuarter corpus80 genOk 16 3 5 11 _ _ rfl⟩
